import Mathlib

/-!
Verification of the page-rendering cache of the `pdf-reader-gpui` repository
(`src/lib.rs`), as a shallow embedding in Lean 4.

Modelling conventions:
* `usize` values become `Nat`; `usize::saturating_sub` is ordinary truncated
  `Nat` subtraction.
* `Range<usize>` becomes the structure `USRange` with fields `start`/`stop`
  (`stop` stands for Rust's `end`, which is a Lean keyword);
  `Range::len()` is `stop - start` in `Nat` (0 for an inverted range, as in
  Rust) and `Range::contains` is `start <= i && i < stop`.
* `Arc<RenderImage>` values are abstract tokens (`Image := Nat`); the cache
  never inspects pixel data.
* `Arc<Pdf>` becomes the structure `Pdf` carrying the allocation identity
  (`id`, so that `Arc::ptr_eq` is `id` equality) and the page count.
* The `f32` scale fields of `RenderSettings2` are modelled by their bit
  patterns as `Nat`, and `u16` by `Nat`; `==` on the struct is field-wise
  equality.
* Raw pointers in the bulk-free arena become `Nat` with `0` playing the role
  of the null pointer; `Layout` is an abstract `Nat`.
* Wakers / condition variables only affect scheduling, never the value of
  any shared field, and are omitted from the state.
-/

/-- Half-open interval of page indices, Rust's `Range<usize>`. -/
structure USRange where
  start : Nat
  stop : Nat
deriving DecidableEq

/-- `Range::<usize>::len()`: number of elements, 0 when `start >= stop`. -/
def rangeLen (r : USRange) : Nat := r.stop - r.start

/-- `Range::<usize>::contains(&i)`. -/
def rangeContains (r : USRange) (i : Nat) : Bool :=
  decide (r.start ≤ i) && decide (i < r.stop)

/-- `range_union` from `src/lib.rs`: smallest range containing both `a` and
`b`, with empty operands never widening the result. -/
def range_union (a b : USRange) : USRange :=
  match rangeLen a, rangeLen b with
  | 0, 0 => ⟨0, 0⟩
  | _ + 1, 0 => a
  | 0, _ + 1 => b
  | _ + 1, _ + 1 => ⟨min a.start b.start, max a.stop b.stop⟩

/-- `range_intersection` from `src/lib.rs`: largest range covered by both,
clamped so that it never has `start > stop`. -/
def range_intersection (a b : USRange) : USRange :=
  let s := max a.start b.start
  ⟨s, max (min a.stop b.stop) s⟩

/-- `range_is_contiguous` from `src/lib.rs`: the union is no larger than the
two ranges put end to end. -/
def range_is_contiguous (a b : USRange) : Bool :=
  decide (rangeLen (range_union a b) ≤ rangeLen a + rangeLen b)

example : range_is_contiguous ⟨0, 2⟩ ⟨2, 5⟩ = true := by decide
example : range_is_contiguous ⟨0, 2⟩ ⟨3, 5⟩ = false := by decide
example : range_is_contiguous ⟨0, 0⟩ ⟨2, 2⟩ = true := by decide
example : range_intersection ⟨0, 0⟩ ⟨2, 2⟩ = ⟨2, 2⟩ := by decide

/-- When both operands are non-empty the union takes the convex hull. -/
theorem range_union_pos (a b : USRange) (ha : 0 < rangeLen a)
    (hb : 0 < rangeLen b) :
    range_union a b = ⟨min a.start b.start, max a.stop b.stop⟩ := by
  unfold range_union
  rcases hA : rangeLen a with _ | n
  · omega
  · rcases hB : rangeLen b with _ | m
    · omega
    · rfl

/-- C6 — counterexample: for the two (disjoint) empty ranges `0..0` and
`2..2`, `range_is_contiguous` returns `true`, while the intersection is empty
and neither endpoint pair coincides, so the claimed equivalence fails. -/
theorem c6_contiguous_iff_counterexample :
    range_is_contiguous ⟨0, 0⟩ ⟨2, 2⟩ = true ∧
      ¬(rangeLen (range_intersection ⟨0, 0⟩ ⟨2, 2⟩) ≠ 0 ∨
        (USRange.mk 0 0).stop = (USRange.mk 2 2).start ∨
        (USRange.mk 2 2).stop = (USRange.mk 0 0).start) := by
  decide

/-- C6 (amended) — for ranges `a`, `b` that are both non-empty,
`range_is_contiguous a b` is true iff `range_intersection a b` is non-empty
or `a.stop = b.start` or `b.stop = a.start`; when either range is empty,
`range_is_contiguous` returns `true` unconditionally. -/
theorem c6_contiguous_iff_amended (a b : USRange) :
    (0 < rangeLen a → 0 < rangeLen b →
      (range_is_contiguous a b = true ↔
        rangeLen (range_intersection a b) ≠ 0 ∨
          a.stop = b.start ∨ b.stop = a.start)) ∧
    (rangeLen a = 0 ∨ rangeLen b = 0 → range_is_contiguous a b = true) := by
  constructor
  · intro ha hb
    rw [range_is_contiguous, range_union_pos a b ha hb]
    simp only [decide_eq_true_eq, range_intersection, rangeLen] at *
    omega
  · intro h
    rw [range_is_contiguous]
    rcases h with h | h
    · rcases hB : rangeLen b with _ | m
      · unfold range_union
        rw [h, hB]
        simp [rangeLen]
      · unfold range_union
        rw [h, hB]
        simp [decide_eq_true_eq]
        omega
    · rcases hA : rangeLen a with _ | n
      · unfold range_union
        rw [hA, h]
        simp [rangeLen]
      · unfold range_union
        rw [hA, h]
        simp [decide_eq_true_eq]
        omega

/-- C6 witness: both parts of the amended theorem evaluated at concrete
ranges (`1..3` and `3..6` touch; `5..5` is empty). -/
theorem c6_contiguous_iff_amended_witness :
    (range_is_contiguous ⟨1, 3⟩ ⟨3, 6⟩ = true ↔
      rangeLen (range_intersection ⟨1, 3⟩ ⟨3, 6⟩) ≠ 0 ∨
        (USRange.mk 1 3).stop = (USRange.mk 3 6).start ∨
        (USRange.mk 3 6).stop = (USRange.mk 1 3).start) ∧
    range_is_contiguous ⟨5, 5⟩ ⟨9, 20⟩ = true :=
  ⟨(c6_contiguous_iff_amended ⟨1, 3⟩ ⟨3, 6⟩).1 (by decide) (by decide),
   (c6_contiguous_iff_amended ⟨5, 5⟩ ⟨9, 20⟩).2 (by decide)⟩

/-- Abstract token standing for one `Arc<RenderImage>`. -/
abbrev Image : Type := Nat

/-- An `Arc<Pdf>`: `id` is the allocation address, so `Arc::ptr_eq` becomes
equality of `id`; `pageCount` is `pdf.pages().len()`. -/
structure Pdf where
  id : Nat
  pageCount : Nat
deriving DecidableEq

/-- `RenderSettings2` from `src/lib.rs`. The `f32` scales are carried as
their bit patterns and the `u16` viewport sizes as `Nat`; `PartialEq` on the
Rust struct is field-wise (the model conflates `0.0 == -0.0` and
`NaN != NaN`, neither of which any claim depends on). -/
structure RenderSettings2 where
  x_scale : Nat
  y_scale : Nat
  width : Option Nat
  height : Option Nat
deriving DecidableEq

/-- `PdfPageCacheMutableState` from `src/lib.rs` (the `wake_future` waker is
omitted: it only affects scheduling, never the value of a shared field). -/
structure MState where
  images : List (Option Image)
  render_settings : RenderSettings2
  pdf : Option Pdf
  requested_pages : USRange
  acknowledged_pages : USRange
  should_quit : Bool
deriving DecidableEq

/-- `PdfPageCacheMutableState::set_new_pdf`: clear the slot vector, resize it
to the new page count when a document is supplied, and reset both ranges. -/
def set_new_pdf (s : MState) (pdf : Option Pdf)
    (render_settings : RenderSettings2) : MState :=
  { s with
    images := match pdf with
      | some p => List.replicate p.pageCount none
      | none => []
    requested_pages := ⟨0, 0⟩
    acknowledged_pages := ⟨0, 0⟩
    render_settings := render_settings
    pdf := pdf }

/-- C3 — after `set_new_pdf(pdf, cfg)` the requested and acknowledged ranges
are `0..0`, every slot is `None`, and the slot vector's length is the new
document's page count (0 when `pdf` is `None`): the vector is rebuilt, no old
`Some` slot survives. -/
theorem c3_set_new_pdf_resets (s : MState) (pdf : Option Pdf)
    (cfg : RenderSettings2) :
    (set_new_pdf s pdf cfg).requested_pages = ⟨0, 0⟩ ∧
    (set_new_pdf s pdf cfg).acknowledged_pages = ⟨0, 0⟩ ∧
    (∀ slot ∈ (set_new_pdf s pdf cfg).images, slot = none) ∧
    (set_new_pdf s pdf cfg).images.length =
      (match pdf with | some p => p.pageCount | none => 0) := by
  refine ⟨rfl, rfl, ?_, ?_⟩
  · intro slot h
    cases pdf with
    | some p =>
        simpa using List.eq_of_mem_replicate (by simpa [set_new_pdf] using h)
    | none => simp [set_new_pdf] at h
  · cases pdf <;> simp [set_new_pdf]

/-- Frame-to-frame bookkeeping owned by `PdfPageCache` (the façade): the
ranges rendered this frame and the previous frame. -/
structure FrameState where
  pages_this_frame : USRange
  pages_last_frame : USRange
deriving DecidableEq

/-- `PdfPageCache::frame_start`: rotate `pages_this_frame` into
`pages_last_frame` and reset `pages_this_frame`. -/
def frame_start (fs : FrameState) : FrameState :=
  ⟨⟨0, 0⟩, fs.pages_this_frame⟩

/-- `slice::get(Range)` on the slot vector: `Some` sub-slice iff
`start <= end && end <= len`, otherwise `None`. -/
def sliceGet (l : List (Option Image)) (r : USRange) :
    Option (List (Option Image)) :=
  if r.start ≤ r.stop ∧ r.stop ≤ l.length then
    some ((l.drop r.start).take (r.stop - r.start))
  else
    none

/-- The vector `get_images` hands to the display layer: the requested slice
of the slot vector when it is fully in bounds, otherwise `len` copies of
`None` (`vec![None; visible_range.len()]`). -/
def snapshot (l : List (Option Image)) (r : USRange) : List (Option Image) :=
  match sliceGet l r with
  | some slice => slice
  | none => List.replicate (rangeLen r) none

/-- `PdfPageCache::get_images`: returns the snapshot handed to the display
layer together with the updated frame bookkeeping and shared state.
Waking the worker / the notifier is omitted (scheduling only). -/
def get_images (visible_range : USRange) (fs : FrameState) (ms : MState) :
    List (Option Image) × FrameState × MState :=
  let images := snapshot ms.images visible_range
  if visible_range.start = 0 ∧ visible_range.stop = 1 then
    -- request for only the first page: never tracked
    (images, fs, ms)
  else
    let this_frame :=
      if rangeLen fs.pages_this_frame = 0 ∨
          range_is_contiguous fs.pages_this_frame visible_range = false then
        visible_range
      else
        range_union fs.pages_this_frame visible_range
    let fs2 : FrameState := ⟨this_frame, fs.pages_last_frame⟩
    (images, fs2,
     { ms with
       requested_pages := range_union this_frame fs.pages_last_frame })

theorem get_images_fst (visible_range : USRange) (fs : FrameState)
    (ms : MState) :
    (get_images visible_range fs ms).1 = snapshot ms.images visible_range := by
  unfold get_images
  split <;> rfl

theorem snapshot_length (l : List (Option Image)) (r : USRange) :
    (snapshot l r).length = rangeLen r := by
  unfold snapshot
  rcases h : sliceGet l r with _ | slice
  · simp
  · unfold sliceGet at h
    split at h
    · next hc =>
        cases h
        simp only [List.length_take, List.length_drop, rangeLen]
        omega
    · cases h

/-- C9 — the vector returned by `get_images` always has exactly
`visible_range.len()` elements, whatever the range and the cache state. -/
theorem c9_get_images_length (visible_range : USRange) (fs : FrameState)
    (ms : MState) :
    ((get_images visible_range fs ms).1).length = rangeLen visible_range := by
  rw [get_images_fst]
  exact snapshot_length ms.images visible_range

/-- C10 — when `visible_range` reaches past the end of the slot vector,
`get_images` returns all-`None`, even for the in-bounds indices whose slots
do hold cached images. -/
theorem c10_get_images_out_of_bounds (visible_range : USRange)
    (fs : FrameState) (ms : MState)
    (h : ms.images.length < visible_range.stop) :
    (get_images visible_range fs ms).1 =
      List.replicate (rangeLen visible_range) none := by
  have hget : sliceGet ms.images visible_range = none := by
    unfold sliceGet
    rw [if_neg]
    omega
  rw [get_images_fst, snapshot, hget]

/-- C10 witness: a two-slot cache, both slots cached, queried at `0..3`:
everything comes back `None`. -/
theorem c10_get_images_out_of_bounds_witness :
    (get_images ⟨0, 3⟩ ⟨⟨0, 0⟩, ⟨0, 0⟩⟩
        { images := [some (5 : Nat), some (6 : Nat)],
          render_settings := ⟨0, 0, none, none⟩,
          pdf := none,
          requested_pages := ⟨0, 0⟩,
          acknowledged_pages := ⟨0, 0⟩,
          should_quit := false }).1 = List.replicate 3 none :=
  c10_get_images_out_of_bounds ⟨0, 3⟩ ⟨⟨0, 0⟩, ⟨0, 0⟩⟩ _ (by decide)

/-- A shared state with no document loaded, used as a concrete base point. -/
def msA : MState :=
  { images := []
    render_settings := ⟨0, 0, none, none⟩
    pdf := none
    requested_pages := ⟨0, 0⟩
    acknowledged_pages := ⟨0, 0⟩
    should_quit := false }

/-- C8 — counterexample: start a frame whose previous frame showed `0..2`,
call `get_images 10..12` and then `get_images 20..22` (non-contiguous with
the prior call's `this_frame = 10..12`). Page 10 belongs to the prior call's
window and not to `20..22`, yet the resulting `requested_pages`
(`union(20..22, last_frame 0..2) = 0..22`) still contains it, because the
request is the convex hull with `pages_last_frame`. -/
theorem c8_noncontiguous_counterexample :
    range_is_contiguous
        (get_images ⟨10, 12⟩ (frame_start ⟨⟨0, 2⟩, ⟨0, 0⟩⟩)
          msA).2.1.pages_this_frame ⟨20, 22⟩ = false ∧
    rangeContains
        (get_images ⟨10, 12⟩ (frame_start ⟨⟨0, 2⟩, ⟨0, 0⟩⟩)
          msA).2.1.pages_this_frame 10 = true ∧
    rangeContains ⟨20, 22⟩ 10 = false ∧
    rangeContains
        (get_images ⟨20, 22⟩
          (get_images ⟨10, 12⟩ (frame_start ⟨⟨0, 2⟩, ⟨0, 0⟩⟩) msA).2.1
          (get_images ⟨10, 12⟩ (frame_start ⟨⟨0, 2⟩, ⟨0, 0⟩⟩)
            msA).2.2).2.2.requested_pages 10 = true := by
  decide

/-- A `get_images` call that is not the untracked `0..1` request and whose
range is non-contiguous with (or replaces an empty) `pages_this_frame`
overwrites `pages_this_frame` with the new range and sets
`requested_pages := union(new range, pages_last_frame)`. -/
theorem get_images_discard (fs : FrameState) (ms : MState) (v : USRange)
    (hne : ¬(v.start = 0 ∧ v.stop = 1))
    (hc : rangeLen fs.pages_this_frame = 0 ∨
      range_is_contiguous fs.pages_this_frame v = false) :
    (get_images v fs ms).2.1 = ⟨v, fs.pages_last_frame⟩ ∧
    (get_images v fs ms).2.2 =
      { ms with requested_pages := range_union v fs.pages_last_frame } := by
  unfold get_images
  rw [if_neg hne, if_pos hc]
  exact ⟨rfl, rfl⟩

/-- C8 (amended) — when a second `get_images` call in the same frame window
uses a `visible_range` that is non-contiguous with the accumulated
`pages_this_frame` of the prior call (and is not the untracked singleton
`0..1`), the prior `this_frame` value is discarded rather than unioned in:
afterwards `pages_this_frame` is exactly the new `visible_range` and
`requested_pages = union(visible_range, pages_last_frame)`; a prior-window
page survives only if it lies in that union. -/
theorem c8_noncontiguous_discards_amended (fs : FrameState) (ms : MState)
    (v1 v2 : USRange) (hne : ¬(v2.start = 0 ∧ v2.stop = 1))
    (hcontig : range_is_contiguous
      (get_images v1 fs ms).2.1.pages_this_frame v2 = false) :
    (get_images v2 (get_images v1 fs ms).2.1
        (get_images v1 fs ms).2.2).2.1.pages_this_frame = v2 ∧
    (get_images v2 (get_images v1 fs ms).2.1
        (get_images v1 fs ms).2.2).2.2.requested_pages =
      range_union v2 (get_images v1 fs ms).2.1.pages_last_frame ∧
    (∀ j, rangeContains (get_images v1 fs ms).2.1.pages_this_frame j = true →
      rangeContains
          (range_union v2 (get_images v1 fs ms).2.1.pages_last_frame) j =
        false →
      rangeContains
          (get_images v2 (get_images v1 fs ms).2.1
            (get_images v1 fs ms).2.2).2.2.requested_pages j = false) := by
  have hc : rangeLen (get_images v1 fs ms).2.1.pages_this_frame = 0 ∨
      range_is_contiguous (get_images v1 fs ms).2.1.pages_this_frame v2 =
        false := Or.inr hcontig
  obtain ⟨h1, h2⟩ :=
    get_images_discard (get_images v1 fs ms).2.1 (get_images v1 fs ms).2.2
      v2 hne hc
  refine ⟨by rw [h1], by rw [h2], ?_⟩
  intro j _ hnot
  rw [h2]
  exact hnot

/-- C8 witness: the amended theorem applied to the concrete scenario of the
counterexample (`last_frame = 0..2`, first call `10..12`, second call
`20..22`). -/
theorem c8_noncontiguous_discards_amended_witness :
    (get_images ⟨20, 22⟩
        (get_images ⟨10, 12⟩ (frame_start ⟨⟨0, 2⟩, ⟨0, 0⟩⟩) msA).2.1
        (get_images ⟨10, 12⟩ (frame_start ⟨⟨0, 2⟩, ⟨0, 0⟩⟩)
          msA).2.2).2.1.pages_this_frame = ⟨20, 22⟩ ∧
    (get_images ⟨20, 22⟩
        (get_images ⟨10, 12⟩ (frame_start ⟨⟨0, 2⟩, ⟨0, 0⟩⟩) msA).2.1
        (get_images ⟨10, 12⟩ (frame_start ⟨⟨0, 2⟩, ⟨0, 0⟩⟩)
          msA).2.2).2.2.requested_pages =
      range_union ⟨20, 22⟩
        (get_images ⟨10, 12⟩ (frame_start ⟨⟨0, 2⟩, ⟨0, 0⟩⟩)
          msA).2.1.pages_last_frame :=
  ⟨(c8_noncontiguous_discards_amended (frame_start ⟨⟨0, 2⟩, ⟨0, 0⟩⟩) msA
      ⟨10, 12⟩ ⟨20, 22⟩ (by decide) (by decide)).1,
   (c8_noncontiguous_discards_amended (frame_start ⟨⟨0, 2⟩, ⟨0, 0⟩⟩) msA
      ⟨10, 12⟩ ⟨20, 22⟩ (by decide) (by decide)).2.1⟩

/-- The worker's wanted window: `requested_pages` with its start pulled back
by one page (`saturating_sub`). -/
def wantedRange (req : USRange) : USRange := ⟨req.start - 1, req.stop⟩

/-- The center the worker aims at:
`wanted.end.saturating_sub(1 + wanted.len() / 2)`. -/
def workerCenter (w : USRange) : Nat := w.stop - (1 + rangeLen w / 2)

/-- Whether the worker keeps/renders slot `i`: slot 0 follows the
`cache_first_image` special case, every other slot must lie in the wanted
window. -/
def shouldCacheAt (cacheFirst : Bool) (w : USRange) (i : Nat) : Bool :=
  if i = 0 then cacheFirst else rangeContains w i

/-- Candidate update `if distance < chose_index_distance`: replace the best
candidate when the new distance is strictly smaller (the `usize::MAX`
sentinel of the source becomes `none`, which any distance beats). -/
def betterCandidate (i d : Nat) (best : Option (Nat × Nat)) :
    Option (Nat × Nat) :=
  match best with
  | none => some (i, d)
  | some (j, bd) => if d < bd then some (i, d) else some (j, bd)

/-- The worker's per-slot scan (`lines 416-431` of `src/lib.rs`): slots that
are not wanted are evicted to `None`; among wanted-and-empty slots the one
closest to `center` is tracked as `(index, distance)`, strict `<` keeping the
lowest index on ties. `i` is the index of the first list element, `best` the
best candidate so far. -/
def scanImages (cf : Bool) (w : USRange) (c : Nat) :
    List (Option Image) → Nat → Option (Nat × Nat) →
    List (Option Image) × Option (Nat × Nat)
  | [], _, best => ([], best)
  | img :: rest, i, best =>
    if shouldCacheAt cf w i then
      let best2 :=
        if img.isNone then betterCandidate i (Nat.dist i c) best else best
      let r := scanImages cf w c rest (i + 1) best2
      (img :: r.1, r.2)
    else
      let r := scanImages cf w c rest (i + 1) best
      (none :: r.1, r.2)

/-- One pass of the worker's candidate-selection critical section
(`lines 400-439` of `src/lib.rs`): evict unwanted slots, choose the page to
rasterize, and record `acknowledged_pages = requested_pages`. -/
def workerObserve (s : MState) : MState × Option Nat :=
  let w := wantedRange s.requested_pages
  let cf := decide (s.requested_pages.start ≤ 1)
  let r := scanImages cf w (workerCenter w) s.images 0 none
  ({ s with images := r.1, acknowledged_pages := s.requested_pages },
   r.2.map Prod.fst)

/-- `guard.pdf.as_ref().is_some_and(|new_pdf| Arc::ptr_eq(&pdf, &new_pdf))`. -/
def pdfPtrEqOpt (o : Option Pdf) (p : Pdf) : Bool :=
  match o with
  | some q => q.id == p.id
  | none => false

/-- The worker's commit critical section (`lines 456-474` of `src/lib.rs`):
the rendered image is stored into slot `i` only when the render settings and
the document pointer still match the captured ones and the slot index is in
bounds; otherwise the state is untouched. -/
def workerCommit (s : MState) (pdf : Pdf) (cfg : RenderSettings2) (i : Nat)
    (img : Image) : MState :=
  if s.render_settings = cfg ∧ pdfPtrEqOpt s.pdf pdf = true then
    { s with images := s.images.set i (some img) }
  else
    s

/-- `Drop for PdfPageCache`: raise the shutdown flag. -/
def quitStep (s : MState) : MState := { s with should_quit := true }

/-- The two execution contexts that mutate the shared state. -/
inductive Actor where
  | worker
  | foreground
deriving DecidableEq

/-- Every critical section of the source that writes the shared
`PdfPageCacheMutableState`, labelled with the context that runs it:
`set_new_pdf` and `get_images` and the façade's `Drop` run on the
foreground, the selection pass and the commit on the worker thread. -/
inductive SysStep : MState → Actor → MState → Prop where
  | set_new_pdf (s : MState) (pdf : Option Pdf) (cfg : RenderSettings2) :
      SysStep s Actor.foreground (set_new_pdf s pdf cfg)
  | get_images (s : MState) (v : USRange) (fs : FrameState) :
      SysStep s Actor.foreground (get_images v fs s).2.2
  | drop_quit (s : MState) :
      SysStep s Actor.foreground (quitStep s)
  | observe (s : MState) :
      SysStep s Actor.worker (workerObserve s).1
  | commit (s : MState) (pdf : Pdf) (cfg : RenderSettings2) (i : Nat)
      (img : Image) :
      SysStep s Actor.worker (workerCommit s pdf cfg i img)

theorem workerCommit_stale (s : MState) (pdf : Pdf) (cfg : RenderSettings2)
    (i : Nat) (img : Image)
    (h : ¬(s.render_settings = cfg ∧ pdfPtrEqOpt s.pdf pdf = true)) :
    workerCommit s pdf cfg i img = s := by
  unfold workerCommit
  rw [if_neg h]

/-- C1 — a completed background render is committed only when, at commit
time, the render configuration equals the captured one and the live document
is pointer-equal to the captured one; on any mismatch the whole state (in
particular the slot vector) is left untouched. Consequently, after
`set_new_pdf` installs a pointer-different document, a render captured
against the old document never lands in the new slot array: every slot stays
`None`. -/
theorem c1_stale_render_discarded :
    (∀ (s : MState) (pdf : Pdf) (cfg : RenderSettings2) (i : Nat)
        (img : Image),
      ¬(s.render_settings = cfg ∧ pdfPtrEqOpt s.pdf pdf = true) →
      workerCommit s pdf cfg i img = s) ∧
    (∀ (s : MState) (oldPdf newPdf : Pdf) (oldCfg newCfg : RenderSettings2)
        (i : Nat) (img : Image),
      newPdf.id ≠ oldPdf.id →
      (workerCommit (set_new_pdf s (some newPdf) newCfg) oldPdf oldCfg i
          img).images = List.replicate newPdf.pageCount none) := by
  constructor
  · exact workerCommit_stale
  · intro s oldPdf newPdf oldCfg newCfg i img hne
    have h : ¬((set_new_pdf s (some newPdf) newCfg).render_settings = oldCfg ∧
        pdfPtrEqOpt (set_new_pdf s (some newPdf) newCfg).pdf oldPdf =
          true) := by
      intro hcon
      have h2 := hcon.2
      simp only [set_new_pdf, pdfPtrEqOpt, beq_iff_eq] at h2
      exact hne h2
    rw [workerCommit_stale _ _ _ _ _ h]
    rfl

/-- C1 witness: both parts at concrete inputs — a commit attempted with
changed settings leaves the state alone, and a commit captured against the
old document (`id 1`) after `set_new_pdf` installed a new two-page document
(`id 2`) leaves the fresh slot array all-`None`. -/
theorem c1_stale_render_discarded_witness :
    workerCommit msA ⟨1, 1⟩ ⟨5, 5, none, none⟩ 0 (7 : Nat) = msA ∧
    (workerCommit (set_new_pdf msA (some ⟨2, 2⟩) ⟨0, 0, none, none⟩) ⟨1, 1⟩
        ⟨0, 0, none, none⟩ 0 (7 : Nat)).images = List.replicate 2 none :=
  ⟨c1_stale_render_discarded.1 msA ⟨1, 1⟩ ⟨5, 5, none, none⟩ 0 (7 : Nat)
      (by decide),
   c1_stale_render_discarded.2 msA ⟨1, 1⟩ ⟨2, 2⟩ ⟨0, 0, none, none⟩
      ⟨0, 0, none, none⟩ 0 (7 : Nat) (by decide)⟩

/-- Any candidate the scan reports was either already in `best` or satisfies
`shouldCacheAt` at its index. -/
theorem scanImages_mem (cf : Bool) (w : USRange) (c : Nat) :
    ∀ (l : List (Option Image)) (i : Nat) (best : Option (Nat × Nat)),
      (∀ j d, best = some (j, d) → shouldCacheAt cf w j = true) →
      ∀ j d, (scanImages cf w c l i best).2 = some (j, d) →
        shouldCacheAt cf w j = true := by
  intro l
  induction l with
  | nil =>
      intro i best hbest j d h
      exact hbest j d h
  | cons img rest ih =>
      intro i best hbest j d h
      rw [scanImages] at h
      by_cases hsc : shouldCacheAt cf w i = true
      · rw [if_pos hsc] at h
        dsimp only at h
        refine ih (i + 1) _ ?_ j d h
        intro j2 d2 h2
        cases img with
        | some v =>
            simp only [Option.isNone_some, Bool.false_eq_true, if_false] at h2
            exact hbest j2 d2 h2
        | none =>
            simp only [Option.isNone_none, if_true] at h2
            cases hb : best with
            | none =>
                rw [hb] at h2
                simp only [betterCandidate] at h2
                cases h2
                exact hsc
            | some p =>
                obtain ⟨jb, bd⟩ := p
                rw [hb] at h2
                simp only [betterCandidate] at h2
                by_cases hd : Nat.dist i c < bd
                · rw [if_pos hd] at h2
                  cases h2
                  exact hsc
                · rw [if_neg hd] at h2
                  cases h2
                  exact hbest j2 d2 hb
      · rw [if_neg hsc] at h
        dsimp only at h
        exact ih (i + 1) best hbest j d h

/-- A one-page document whose only slot is uncached, with
`requested_pages = 0..0`: the state right after `set_new_pdf` installs a
one-page document, before any `get_images` call. -/
def msC2 : MState :=
  { images := [none]
    render_settings := ⟨0, 0, none, none⟩
    pdf := some ⟨1, 1⟩
    requested_pages := ⟨0, 0⟩
    acknowledged_pages := ⟨0, 0⟩
    should_quit := false }

/-- C2 — counterexample: with `requested_pages = R = 0..0` (which the claim
explicitly includes) the extended window `(R.start-1)..R.end` is the empty
range `0..0`, yet the worker's selection pass still picks index 0 for
rendering because the `cache_first_image` special case (`R.start <= 1`)
bypasses the window test for slot 0. -/
theorem c2_selection_window_counterexample :
    (workerObserve msC2).2 = some 0 ∧
    rangeContains (wantedRange msC2.requested_pages) 0 = false := by
  decide

/-- C2 (amended) — whenever the worker selects page `i` for rendering with
`requested_pages = R`, either `i` lies in `R` extended by one page at the
start (`R.start - 1 <= i < R.end`, saturating at 0), or `i = 0` and
`R.start <= 1` (the first-page special case, which also fires for an empty
`R` with `R.start <= 1`); and index 0 is never selected unless
`R.start <= 1`. -/
theorem c2_selection_window_amended (s : MState) (i : Nat)
    (h : (workerObserve s).2 = some i) :
    ((s.requested_pages.start - 1 ≤ i ∧ i < s.requested_pages.stop) ∨
      (i = 0 ∧ s.requested_pages.start ≤ 1)) ∧
    (i = 0 → s.requested_pages.start ≤ 1) := by
  unfold workerObserve at h
  dsimp only at h
  rcases hb : (scanImages (decide (s.requested_pages.start ≤ 1))
      (wantedRange s.requested_pages)
      (workerCenter (wantedRange s.requested_pages)) s.images 0 none).2 with
    _ | p
  · rw [hb] at h
    cases h
  · obtain ⟨j, d⟩ := p
    rw [hb] at h
    simp only [Option.map_some', Option.some.injEq] at h
    have hsc := scanImages_mem (decide (s.requested_pages.start ≤ 1))
      (wantedRange s.requested_pages)
      (workerCenter (wantedRange s.requested_pages)) s.images 0 none
      (by intro j2 d2 hcon; cases hcon) j d hb
    unfold shouldCacheAt at hsc
    have hgoal : ((s.requested_pages.start - 1 ≤ j ∧
        j < s.requested_pages.stop) ∨
        (j = 0 ∧ s.requested_pages.start ≤ 1)) ∧
        (j = 0 → s.requested_pages.start ≤ 1) := by
      by_cases hj : j = 0
      · rw [if_pos hj] at hsc
        have hle : s.requested_pages.start ≤ 1 := of_decide_eq_true hsc
        exact ⟨Or.inr ⟨hj, hle⟩, fun _ => hle⟩
      · rw [if_neg hj] at hsc
        unfold rangeContains wantedRange at hsc
        simp only [Bool.and_eq_true, decide_eq_true_eq] at hsc
        exact ⟨Or.inl hsc, fun h0 => absurd h0 hj⟩
    exact h ▸ hgoal

/-- C2 witness: the amended theorem at a concrete state — four empty slots,
`requested_pages = 2..4`: the scan picks page 2, which lies inside the
extended window `1..4`. -/
theorem c2_selection_window_amended_witness :
    (workerObserve
        { images := [none, none, none, none]
          render_settings := ⟨0, 0, none, none⟩
          pdf := some ⟨1, 4⟩
          requested_pages := ⟨2, 4⟩
          acknowledged_pages := ⟨0, 0⟩
          should_quit := false }).2 = some 2 ∧
    (((2 : Nat) - 1 ≤ 2 ∧ 2 < 4) ∨ ((2 : Nat) = 0 ∧ (2 : Nat) ≤ 1)) ∧
    ((2 : Nat) = 0 → (2 : Nat) ≤ 1) := by
  refine ⟨by decide, ?_⟩
  exact c2_selection_window_amended
    { images := [none, none, none, none]
      render_settings := ⟨0, 0, none, none⟩
      pdf := some ⟨1, 4⟩
      requested_pages := ⟨2, 4⟩
      acknowledged_pages := ⟨0, 0⟩
      should_quit := false } 2 (by decide)

/-- A shared state in which the worker has acknowledged the request `3..5`. -/
def msC7 : MState :=
  { images := []
    render_settings := ⟨0, 0, none, none⟩
    pdf := none
    requested_pages := ⟨3, 5⟩
    acknowledged_pages := ⟨3, 5⟩
    should_quit := false }

/-- The shared state built by `PdfPageCache::new`: empty slot vector, unit
scales, no document, empty ranges. -/
def initState : MState :=
  { images := []
    render_settings := ⟨1, 1, none, none⟩
    pdf := none
    requested_pages := ⟨0, 0⟩
    acknowledged_pages := ⟨0, 0⟩
    should_quit := false }

/-- States of the shared cache reachable through the system's critical
sections. -/
def SysReach : MState → MState → Prop :=
  Relation.ReflTransGen (fun s s2 => ∃ a, SysStep s a s2)

/-- C7 — counterexample: in the reachable state where the display layer has
requested `3..5` and the worker has acknowledged it, calling `set_new_pdf`
— a foreground critical section — changes `acknowledged_pages` (to `0..0`),
so the acknowledged range is not written only by the background worker. -/
theorem c7_ack_writer_counterexample :
    ¬(∀ (s s2 : MState) (a : Actor), SysReach initState s →
        SysStep s a s2 →
        s2.acknowledged_pages ≠ s.acknowledged_pages →
        a = Actor.worker ∧ s2.acknowledged_pages = s.requested_pages) := by
  intro hclaim
  have hreach : SysReach initState
      (workerObserve
        (get_images ⟨3, 5⟩ ⟨⟨0, 0⟩, ⟨0, 0⟩⟩ initState).2.2).1 :=
    Relation.ReflTransGen.tail
      (Relation.ReflTransGen.tail Relation.ReflTransGen.refl
        ⟨Actor.foreground,
         SysStep.get_images initState ⟨3, 5⟩ ⟨⟨0, 0⟩, ⟨0, 0⟩⟩⟩)
      ⟨Actor.worker,
       SysStep.observe (get_images ⟨3, 5⟩ ⟨⟨0, 0⟩, ⟨0, 0⟩⟩ initState).2.2⟩
  have h := hclaim
    (workerObserve (get_images ⟨3, 5⟩ ⟨⟨0, 0⟩, ⟨0, 0⟩⟩ initState).2.2).1
    (set_new_pdf
      (workerObserve (get_images ⟨3, 5⟩ ⟨⟨0, 0⟩, ⟨0, 0⟩⟩ initState).2.2).1
      none ⟨1, 1, none, none⟩)
    Actor.foreground hreach
    (SysStep.set_new_pdf
      (workerObserve (get_images ⟨3, 5⟩ ⟨⟨0, 0⟩, ⟨0, 0⟩⟩ initState).2.2).1
      none ⟨1, 1, none, none⟩)
    (by decide)
  exact absurd h.1 (by decide)

/-- C7 (amended) — across every critical section that writes the shared
state, `acknowledged_pages` is either untouched, or written by the worker's
selection pass to exactly the `requested_pages` it just observed, or written
by the foreground's `set_new_pdf`, which resets it to `0..0` together with
`requested_pages`. -/
theorem c7_ack_writer_amended (s s2 : MState) (a : Actor)
    (h : SysStep s a s2) :
    s2.acknowledged_pages = s.acknowledged_pages ∨
    (a = Actor.worker ∧ s2.acknowledged_pages = s.requested_pages) ∨
    (a = Actor.foreground ∧ s2.acknowledged_pages = ⟨0, 0⟩ ∧
      s2.requested_pages = ⟨0, 0⟩) := by
  cases h with
  | set_new_pdf pdf cfg => exact Or.inr (Or.inr ⟨rfl, rfl, rfl⟩)
  | get_images v fs =>
      left
      unfold get_images
      split <;> rfl
  | drop_quit => exact Or.inl rfl
  | observe => exact Or.inr (Or.inl ⟨rfl, rfl⟩)
  | commit pdf cfg i img =>
      left
      unfold workerCommit
      split <;> rfl

/-- C7 witness: the amended theorem applied to a concrete worker selection
pass on `msC7`. -/
theorem c7_ack_writer_amended_witness :
    (workerObserve msC7).1.acknowledged_pages = msC7.acknowledged_pages ∨
    (Actor.worker = Actor.worker ∧
      (workerObserve msC7).1.acknowledged_pages = msC7.requested_pages) ∨
    (Actor.worker = Actor.foreground ∧
      (workerObserve msC7).1.acknowledged_pages = ⟨0, 0⟩ ∧
      (workerObserve msC7).1.requested_pages = ⟨0, 0⟩) :=
  c7_ack_writer_amended msC7 (workerObserve msC7).1 Actor.worker
    (SysStep.observe msC7)

/-!
The bulk-free arena (`BulkFreeAlloc` in `src/lib.rs`). The backing array
holds `1024 * 1024` `(pointer, layout)` records and `allocations.0` counts
the used prefix. The model keeps exactly that prefix as a list whose head is
the most recently written record (the highest array index): entries beyond
the count are never read by the source (`alloc` overwrites both fields of
slot `count` before incrementing, and `forget`/`free_all` only scan below
the count), so dropping them loses nothing. Pointers are `Nat` with `0` for
null (`EMPTY_SLOT` holds the null pointer), layouts are abstract `Nat`.
-/

/-- Capacity of the arena's backing array: `1024 * 1024` records. -/
def arenaCap : Nat := 1024 * 1024

/-- `EMPTY_SLOT`: a null pointer with a dummy layout. -/
def emptySlot : Nat × Nat := (0, 0)

/-- `BulkFreeAlloc::alloc`'s record bookkeeping:
`allocations.1[allocations.0] = (ptr, layout)` followed by the increment.
When the count already equals the capacity the indexing is out of bounds and
Rust panics deterministically; the model returns `none` for exactly that
case. -/
def arenaAlloc (s : List (Nat × Nat)) (p l : Nat) :
    Option (List (Nat × Nat)) :=
  if s.length < arenaCap then some ((p, l) :: s) else none

/-- Scanning below the top of the record array: blank out the first record
(in decreasing index order) whose pointer equals `p`. -/
def eraseTop (p : Nat) : List (Nat × Nat) → List (Nat × Nat)
  | [] => []
  | x :: xs => if x.1 = p then emptySlot :: xs else x :: eraseTop p xs

/-- `BulkFreeAlloc::forget`: search from the highest used index down for the
record holding `p`; blank it, and when it is the topmost record also
decrement the count (drop it from the prefix). At most one record is
affected (`break`). -/
def forgetPtr (p : Nat) : List (Nat × Nat) → List (Nat × Nat)
  | [] => []
  | x :: xs => if x.1 = p then xs else x :: eraseTop p xs

/-- `BulkFreeAlloc::free_all`: hand every non-null record to the underlying
allocator's `dealloc` and reset the count to zero. The first component is
the list of records deallocated (most recent first), the second the
remaining record prefix. -/
def free_all (s : List (Nat × Nat)) :
    List (Nat × Nat) × List (Nat × Nat) :=
  (s.filter (fun x => x.1 != 0), [])

/-- The pointers currently recorded and non-null, most recent first. -/
def liveOf (s : List (Nat × Nat)) : List Nat :=
  (s.filter (fun x => x.1 != 0)).map Prod.fst

/-- One arena operation of a rasterize call, as seen by the record
bookkeeping (`dealloc` and `forget` affect the records identically;
`dealloc` additionally frees `p` right away, which the claim does not
inspect). -/
inductive ArenaOp where
  | alloc (p l : Nat)
  | dealloc (p : Nat)
  | forget (p : Nat)
deriving DecidableEq

/-- Run a sequence of arena operations on the record state; `none` when some
`alloc` overflows the backing array. -/
def runOps : List ArenaOp → List (Nat × Nat) → Option (List (Nat × Nat))
  | [], s => some s
  | ArenaOp.alloc p l :: ops, s =>
      match arenaAlloc s p l with
      | some s2 => runOps ops s2
      | none => none
  | ArenaOp.dealloc p :: ops, s => runOps ops (forgetPtr p s)
  | ArenaOp.forget p :: ops, s => runOps ops (forgetPtr p s)

/-- The specification-level multiset of pointers that were recorded by
`alloc` and not since removed by `dealloc` or `forget`, most recent first. -/
def specLiveRun : List ArenaOp → List Nat → List Nat
  | [], live => live
  | ArenaOp.alloc p _ :: ops, live => specLiveRun ops (p :: live)
  | ArenaOp.dealloc p :: ops, live => specLiveRun ops (live.erase p)
  | ArenaOp.forget p :: ops, live => specLiveRun ops (live.erase p)

/-- Well-formed operation sequences: every allocated pointer is non-null and
distinct from the currently live ones (a real allocator never returns a live
address again), and `dealloc`/`forget` are called with non-null pointers. -/
def wfOps : List Nat → List ArenaOp → Bool
  | _, [] => true
  | live, ArenaOp.alloc p _ :: ops =>
      (p != 0) && (!live.contains p) && wfOps (p :: live) ops
  | live, ArenaOp.dealloc p :: ops => (p != 0) && wfOps (live.erase p) ops
  | live, ArenaOp.forget p :: ops => (p != 0) && wfOps (live.erase p) ops

/-- C4 — the arena's `alloc` hits the out-of-bounds panic (fails loudly,
modelled as `none`) exactly when all `1024 * 1024` records are used; within
capacity the record bookkeeping always succeeds and never panics. -/
theorem c4_arena_overflow_panics (s : List (Nat × Nat)) (p l : Nat) :
    arenaAlloc s p l = none ↔ arenaCap ≤ s.length := by
  unfold arenaAlloc
  split
  · next h => simp; omega
  · next h => simp; omega

theorem liveOf_cons_zero (x : Nat × Nat) (xs : List (Nat × Nat))
    (h : x.1 = 0) : liveOf (x :: xs) = liveOf xs := by
  simp [liveOf, List.filter_cons, h]

theorem liveOf_cons_pos (x : Nat × Nat) (xs : List (Nat × Nat))
    (h : x.1 ≠ 0) : liveOf (x :: xs) = x.1 :: liveOf xs := by
  simp [liveOf, List.filter_cons, h]

theorem liveOf_eraseTop (p : Nat) (hp : p ≠ 0) :
    ∀ s : List (Nat × Nat), liveOf (eraseTop p s) = (liveOf s).erase p := by
  intro s
  induction s with
  | nil => rfl
  | cons x xs ih =>
      by_cases hx : x.1 = p
      · rw [eraseTop, if_pos hx, liveOf_cons_zero emptySlot xs rfl,
          liveOf_cons_pos x xs (by rw [hx]; exact hp), hx,
          List.erase_cons_head]
      · rw [eraseTop, if_neg hx]
        by_cases hx0 : x.1 = 0
        · rw [liveOf_cons_zero x (eraseTop p xs) hx0,
            liveOf_cons_zero x xs hx0, ih]
        · rw [liveOf_cons_pos x (eraseTop p xs) hx0,
            liveOf_cons_pos x xs hx0, ih, List.erase_cons_tail]
          simp [hx]

theorem liveOf_forgetPtr (p : Nat) (hp : p ≠ 0) :
    ∀ s : List (Nat × Nat), liveOf (forgetPtr p s) = (liveOf s).erase p := by
  intro s
  cases s with
  | nil => rfl
  | cons x xs =>
      by_cases hx : x.1 = p
      · rw [forgetPtr, if_pos hx,
          liveOf_cons_pos x xs (by rw [hx]; exact hp), hx,
          List.erase_cons_head]
      · rw [forgetPtr, if_neg hx]
        by_cases hx0 : x.1 = 0
        · rw [liveOf_cons_zero x (eraseTop p xs) hx0,
            liveOf_cons_zero x xs hx0, liveOf_eraseTop p hp xs]
        · rw [liveOf_cons_pos x (eraseTop p xs) hx0,
            liveOf_cons_pos x xs hx0, liveOf_eraseTop p hp xs,
            List.erase_cons_tail]
          simp [hx]

/-- During a well-formed run, the non-null recorded pointers are exactly the
specification-level live pointers. -/
theorem runOps_live :
    ∀ (ops : List ArenaOp) (live : List Nat) (s s2 : List (Nat × Nat)),
      liveOf s = live → wfOps live ops = true → runOps ops s = some s2 →
      liveOf s2 = specLiveRun ops live := by
  intro ops
  induction ops with
  | nil =>
      intro live s s2 hlive _ hrun
      rw [runOps] at hrun
      cases hrun
      exact hlive
  | cons op ops ih =>
      intro live s s2 hlive hwf hrun
      cases op with
      | alloc p l =>
          rw [wfOps, Bool.and_eq_true, Bool.and_eq_true] at hwf
          obtain ⟨⟨hp, hmem⟩, hwf2⟩ := hwf
          rw [runOps] at hrun
          rw [specLiveRun]
          rcases ha : arenaAlloc s p l with _ | s3
          · rw [ha] at hrun
            cases hrun
          · rw [ha] at hrun
            dsimp only at hrun
            unfold arenaAlloc at ha
            split at ha
            · cases ha
              refine ih (p :: live) ((p, l) :: s) s2 ?_ hwf2 hrun
              rw [liveOf_cons_pos (p, l) s (by simpa using hp), hlive]
            · cases ha
      | dealloc p =>
          rw [wfOps, Bool.and_eq_true] at hwf
          obtain ⟨hp, hwf2⟩ := hwf
          rw [runOps] at hrun
          rw [specLiveRun]
          refine ih (live.erase p) (forgetPtr p s) s2 ?_ hwf2 hrun
          rw [liveOf_forgetPtr p (by simpa using hp) s, hlive]
      | forget p =>
          rw [wfOps, Bool.and_eq_true] at hwf
          obtain ⟨hp, hwf2⟩ := hwf
          rw [runOps] at hrun
          rw [specLiveRun]
          refine ih (live.erase p) (forgetPtr p s) s2 ?_ hwf2 hrun
          rw [liveOf_forgetPtr p (by simpa using hp) s, hlive]

/-- Well-formedness keeps the specification-level live list duplicate
free. -/
theorem specLiveRun_nodup :
    ∀ (ops : List ArenaOp) (live : List Nat), wfOps live ops = true →
      live.Nodup → (specLiveRun ops live).Nodup := by
  intro ops
  induction ops with
  | nil =>
      intro live _ hnd
      exact hnd
  | cons op ops ih =>
      intro live hwf hnd
      cases op with
      | alloc p l =>
          rw [wfOps, Bool.and_eq_true, Bool.and_eq_true] at hwf
          obtain ⟨⟨_, hmem⟩, hwf2⟩ := hwf
          rw [specLiveRun]
          refine ih (p :: live) hwf2 (List.nodup_cons.mpr ⟨?_, hnd⟩)
          simpa using hmem
      | dealloc p =>
          rw [wfOps, Bool.and_eq_true] at hwf
          rw [specLiveRun]
          exact ih (live.erase p) hwf.2 (hnd.erase p)
      | forget p =>
          rw [wfOps, Bool.and_eq_true] at hwf
          rw [specLiveRun]
          exact ih (live.erase p) hwf.2 (hnd.erase p)

/-- C5 — for every well-formed arena operation sequence that stays within
capacity, `free_all` hands to the underlying allocator exactly the pointers
recorded by `alloc` and not since removed by `dealloc` or `forget` — each
exactly once, nothing else (in particular no forgotten pointer) — and leaves
the record count at zero. -/
theorem c5_free_all_exact (ops : List ArenaOp) (s : List (Nat × Nat))
    (hwf : wfOps [] ops = true) (hrun : runOps ops [] = some s) :
    (free_all s).1.map Prod.fst = specLiveRun ops [] ∧
    ((free_all s).1.map Prod.fst).Nodup ∧
    (free_all s).2 = [] := by
  have hlive : liveOf s = specLiveRun ops [] :=
    runOps_live ops [] [] s rfl hwf hrun
  have hmap : (free_all s).1.map Prod.fst = liveOf s := rfl
  refine ⟨hmap.trans hlive, ?_, rfl⟩
  rw [hmap, hlive]
  exact specLiveRun_nodup ops [] hwf List.nodup_nil

/-- C5 witness: the run `alloc 5; alloc 7; forget 7; alloc 9; dealloc 5`
leaves the records `[(9,3),(0,0)]`; `free_all` frees exactly pointer 9
(neither the forgotten 7 nor the already-freed 5) and clears the records. -/
theorem c5_free_all_exact_witness :
    (free_all [(9, 3), (0, 0)]).1.map Prod.fst =
      specLiveRun [ArenaOp.alloc 5 1, ArenaOp.alloc 7 2, ArenaOp.forget 7,
        ArenaOp.alloc 9 3, ArenaOp.dealloc 5] [] ∧
    ((free_all [(9, 3), (0, 0)]).1.map Prod.fst).Nodup ∧
    (free_all [(9, 3), (0, 0)]).2 = [] :=
  c5_free_all_exact
    [ArenaOp.alloc 5 1, ArenaOp.alloc 7 2, ArenaOp.forget 7,
      ArenaOp.alloc 9 3, ArenaOp.dealloc 5]
    [(9, 3), (0, 0)] (by decide) (by decide)
